import Mathlib

/-!
Shallow embedding of the perm-call-assistant authentication core:
the three Netlify request handlers

  * `verify-code`   (src/netlify/functions/verify-code.js)
  * `check-session` (src/auth.js, check-session handler)
  * `send-code`     (src/auth.js, send-code handler)

over an explicit persistent store (two tables, `verification_codes` and
`sessions`, modelled as lists of rows).  Timestamps are `Nat`
(milliseconds); randomness (generated code, session id, row id) and the
environment (whitelist string) are explicit parameters; fallibility of
each Supabase call is an explicit fault flag, and the handler reacts to
a failed call exactly where the JS checks (or ignores) the returned
`error` field.
-/

namespace PermAuth

/-- A row of the `verification_codes` table.  `id` is the DB primary key,
`createdAt` the DB-assigned creation timestamp. -/
structure CodeRow where
  id : Nat
  email : String
  code : String
  createdAt : Nat
  expiresAt : Nat
  used : Bool
  usedAt : Option Nat
  deriving DecidableEq, Repr

/-- A row of the `sessions` table. -/
structure SessionRow where
  sessionId : String
  email : String
  expiresAt : Nat
  lastAccessed : Option Nat
  deriving DecidableEq, Repr

/-- The persistent store: the two Supabase tables. -/
structure Store where
  codes : List CodeRow
  sessions : List SessionRow
  deriving DecidableEq, Repr

/-- Strip whitespace from both ends of a character list (the effect of
JS `String.prototype.trim`; the handlers only ever see ASCII input, so
ASCII whitespace suffices). -/
def trimList (l : List Char) : List Char :=
  ((l.dropWhile Char.isWhitespace).reverse.dropWhile Char.isWhitespace).reverse

/-- JS `email.trim()`. -/
def jsTrim (s : String) : String := ⟨trimList s.data⟩

/-- JS `email.toLowerCase()` (ASCII case folding). -/
def jsToLower (s : String) : String := ⟨s.data.map Char.toLower⟩

/-- `email.trim().toLowerCase()` - the normalization both handlers apply. -/
def normalizeEmail (s : String) : String :=
  jsToLower (jsTrim s)

/-- JS `s.split(sep)` for a single-character separator. -/
def splitOnChar (sep : Char) (l : List Char) : List (List Char) :=
  l.foldr
    (fun c acc =>
      match acc with
      | [] => [[c]]
      | a :: rest => if c = sep then [] :: a :: rest else (c :: a) :: rest)
    [[]]

/-- `/^\d{5}$/.test(code)` - exactly five ASCII digits. -/
def isFiveDigits (s : String) : Bool :=
  s.data.length == 5 && s.data.all Char.isDigit

/-- The email-shape regex of send-code, `/^[^\s@]+@[^\s@]+\.[^\s@]+$/`:
exactly one `@` (the character classes all exclude it), a nonempty
whitespace-free local part, and a whitespace-free domain containing a
dot at an interior position (the `[^\s@]+` on either side of `\.` may
themselves contain dots, so any interior dot lets the regex match). -/
def emailFormatValid (s : String) : Bool :=
  match splitOnChar '@' s.data with
  | [l, d] =>
      !l.isEmpty && l.all (fun c => !c.isWhitespace)
        && d.all (fun c => !c.isWhitespace)
        && ((d.drop 1).dropLast.contains '.')
  | _ => false

/-- 10 minutes in milliseconds: lifetime of a verification code. -/
def codeDurationMs : Nat := 10 * 60 * 1000

/-- 24 hours in milliseconds: lifetime of a session. -/
def sessionDurationMs : Nat := 24 * 60 * 60 * 1000

/-- Does a `verification_codes` row match the verify-code query
`eq(email).eq(code).eq(used, false)`? -/
def matchesCode (ne c : String) (r : CodeRow) : Bool :=
  r.email == ne && r.code == c && !r.used

/-- One step of scanning for the row with the largest `createdAt`. -/
def newerStep (acc : Option CodeRow) (r : CodeRow) : Option CodeRow :=
  match acc with
  | none => some r
  | some b => if b.createdAt < r.createdAt then some r else some b

/-- `order by created_at descending, limit 1`: the row with the largest
`createdAt` (the first such row on ties, matching a stable descending
sort). -/
def newestBy (l : List CodeRow) : Option CodeRow :=
  l.foldl newerStep none

/-- The verify-code lookup: all rows matching (email, code, used=false),
ordered by created_at descending, first one (`.single()` on an empty
result is an error, modelled as `none`). -/
def findCode (st : Store) (ne c : String) : Option CodeRow :=
  newestBy (st.codes.filter (matchesCode ne c))

/-- `update({used: true}).eq('id', id)` - the expired-branch update,
which does not touch `used_at`. -/
def markUsedOnly (st : Store) (i : Nat) : Store :=
  { st with
    codes := st.codes.map (fun r => if r.id == i then { r with used := true } else r) }

/-- `update({used: true, used_at: now}).eq('id', id)` - the redemption
update.  Note it is keyed on `id` only: there is no `used = false`
condition. -/
def markUsedAt (st : Store) (i : Nat) (t : Nat) : Store :=
  { st with
    codes := st.codes.map
      (fun r => if r.id == i then { r with used := true, usedAt := some t } else r) }

/-- Outcome of the verify-code handler, one constructor per distinct
response the JS can build (ignoring the outer catch-all). -/
inductive VerifyResult where
  | methodNotAllowed                               -- 405
  | missingFields                                  -- 400 'Email and code are required'
  | badCodeFormat                                  -- 400 'Invalid code format'
  | invalidCode                                    -- 401 'Invalid verification code'
  | expired                                        -- 401 'Verification code has expired...'
  | updateFailed                                   -- 500 'Failed to verify code'
  | sessionFailed                                  -- 500 'Failed to create session'
  | verified (sessionId : String) (expiresAt : Nat)  -- 200 success
  deriving DecidableEq, Repr

/-- The statusCode of each verify-code response. -/
def vStatus : VerifyResult → Nat
  | .methodNotAllowed => 405
  | .missingFields => 400
  | .badCodeFormat => 400
  | .invalidCode => 401
  | .expired => 401
  | .updateFailed => 500
  | .sessionFailed => 500
  | .verified _ _ => 200

/-- Does the response body carry a sessionId?  Only the success body does. -/
def hasSessionId : VerifyResult → Bool
  | .verified _ _ => true
  | _ => false

/-- Which Supabase calls of one verify-code invocation return an error. -/
structure VFaults where
  fetchErr : Bool
  updateErr : Bool
  insertErr : Bool
  deriving DecidableEq, Repr

/-- No persistence fault. -/
def VFaults.none : VFaults := ⟨false, false, false⟩

/-- The part of the verify-code handler after the lookup returned `row`:
expiry check, mark-used, session insert.  `now` is the handler's clock,
`newSid` the generated `crypto.randomBytes(32).toString('hex')` value.
The expired-branch update ignores its error (the JS does not inspect it);
the redemption update and the session insert are checked. -/
def afterFetch (st : Store) (f : VFaults) (now : Nat) (newSid : String)
    (ne : String) (row : CodeRow) : VerifyResult × Store :=
  if row.expiresAt < now then
    -- mark as used to prevent reuse; result of the update is discarded
    let st1 := if f.updateErr then st else markUsedOnly st row.id
    (.expired, st1)
  else if f.updateErr then
    (.updateFailed, st)
  else
    let st1 := markUsedAt st row.id now
    if f.insertErr then
      (.sessionFailed, st1)
    else
      let sessExp := now + sessionDurationMs
      (.verified newSid sessExp,
        { st1 with sessions := st1.sessions ++ [⟨newSid, ne, sessExp, Option.none⟩] })

/-- The verify-code handler (src/netlify/functions/verify-code.js).
A missing JSON field is the empty string (the only falsy string). -/
def verifyCode (st : Store) (f : VFaults) (now : Nat) (newSid : String)
    (method email code : String) : VerifyResult × Store :=
  if method ≠ "POST" then
    (.methodNotAllowed, st)
  else if email = "" ∨ code = "" then
    (.missingFields, st)
  else
    let ne := normalizeEmail email
    if ¬ isFiveDigits code then
      (.badCodeFormat, st)
    else
      match (if f.fetchErr then Option.none else findCode st ne code) with
      | Option.none => (.invalidCode, st)
      | some row => afterFetch st f now newSid ne row

/-- Outcome of the check-session handler. -/
inductive CheckResult where
  | methodNotAllowed                        -- 405
  | missingSessionId                        -- 400 'Session ID is required'
  | notFound                                -- 200 {valid:false, reason:'Session not found'}
  | expiredSession                          -- 200 {valid:false, reason:'Session expired'}
  | valid (email : String) (expiresAt : Nat) -- 200 {valid:true, ...}
  deriving DecidableEq, Repr

/-- Is the response body `valid: true`? -/
def cValid : CheckResult → Bool
  | .valid _ _ => true
  | _ => false

/-- Which Supabase calls of one check-session invocation return an
error.  The JS discards the result of both the delete and the
last-accessed update. -/
structure CFaults where
  fetchErr : Bool
  deleteErr : Bool
  touchErr : Bool
  deriving DecidableEq, Repr

/-- No persistence fault. -/
def CFaults.none : CFaults := ⟨false, false, false⟩

/-- The check-session handler (src/auth.js).  Lookup is
`eq('session_id', sid).single()`; deletion is `delete().eq('session_id',
sid)` (all rows with that id); the last-accessed update is keyed the
same way.  Errors of the delete and the touch are ignored by the JS, so
a faulted call only leaves the store unchanged. -/
def checkSession (st : Store) (f : CFaults) (now : Nat)
    (method sessionId : String) : CheckResult × Store :=
  if method ≠ "POST" then
    (.methodNotAllowed, st)
  else if sessionId = "" then
    (.missingSessionId, st)
  else
    match (if f.fetchErr then Option.none
           else st.sessions.find? (fun s => s.sessionId == sessionId)) with
    | Option.none => (.notFound, st)
    | some s =>
      if s.expiresAt < now then
        let st1 := if f.deleteErr then st
          else { st with
                 sessions := st.sessions.filter (fun r => r.sessionId != sessionId) }
        (.expiredSession, st1)
      else
        let st1 := if f.touchErr then st
          else { st with
                 sessions := st.sessions.map
                   (fun r => if r.sessionId == sessionId
                             then { r with lastAccessed := some now } else r) }
        (.valid s.email s.expiresAt, st1)

/-- Outcome of the send-code handler. -/
inductive SendResult where
  | methodNotAllowed      -- 405
  | missingEmail          -- 400 'Email is required'
  | badEmailFormat        -- 400 'Invalid email format'
  | notWhitelisted        -- 403
  | storeError            -- 500 'Failed to generate verification code'
  | sent                  -- 200 {success:true, message:...}
  | sentWithWarning       -- 200 {success:true, warning:...}
  deriving DecidableEq, Repr

/-- The statusCode of each send-code response. -/
def sStatus : SendResult → Nat
  | .methodNotAllowed => 405
  | .missingEmail => 400
  | .badEmailFormat => 400
  | .notWhitelisted => 403
  | .storeError => 500
  | .sent => 200
  | .sentWithWarning => 200

/-- Does the response body say `success: true`? -/
def sSuccess : SendResult → Bool
  | .sent => true
  | .sentWithWarning => true
  | _ => false

/-- Does the response body carry the delivery warning? -/
def sWarning : SendResult → Bool
  | .sentWithWarning => true
  | _ => false

/-- Which collaborator calls of one send-code invocation fail:
the `verification_codes` insert, and the Resend email dispatch. -/
structure SFaults where
  insertErr : Bool
  emailErr : Bool
  deriving DecidableEq, Repr

/-- No fault. -/
def SFaults.none : SFaults := ⟨false, false⟩

/-- `process.env.APPROVED_RECRUITER_EMAILS?.split(',').map(trim+lower) || []`:
the whitelist derived from the environment string (absent env var gives
the empty list). -/
def approvedList (approvedRaw : Option String) : List String :=
  match approvedRaw with
  | Option.none => []
  | some s => (splitOnChar ',' s.data).map (fun cs => normalizeEmail ⟨cs⟩)

/-- The send-code handler (src/auth.js).  `newId` stands for the
DB-assigned primary key of the inserted row and `now` for its
DB-assigned `created_at`; `genCode` is the generated
`Math.floor(10000 + Math.random() * 90000).toString()` value. -/
def sendCode (st : Store) (f : SFaults) (approvedRaw : Option String)
    (newId : Nat) (genCode : String) (now : Nat)
    (method email : String) : SendResult × Store :=
  if method ≠ "POST" then
    (.methodNotAllowed, st)
  else if email = "" then
    (.missingEmail, st)
  else
    let ne := normalizeEmail email
    if ¬ emailFormatValid ne then
      (.badEmailFormat, st)
    else if ¬ (approvedList approvedRaw).contains ne then
      (.notWhitelisted, st)
    else if f.insertErr then
      (.storeError, st)
    else
      let st1 := { st with
        codes := st.codes ++
          [⟨newId, ne, genCode, now, now + codeDurationMs, false, Option.none⟩] }
      if f.emailErr then (.sentWithWarning, st1) else (.sent, st1)

/-! ### Helper lemmas about the lookup and the updates -/

/-- Folding `newerStep` from a seed `b` yields the seed or a list element,
with `createdAt` at least that of the seed and of every list element. -/
theorem foldl_newerStep_some (l : List CodeRow) (b : CodeRow) :
    ∃ r, l.foldl newerStep (some b) = some r ∧ (r = b ∨ r ∈ l) ∧
      b.createdAt ≤ r.createdAt ∧ ∀ x ∈ l, x.createdAt ≤ r.createdAt := by
  induction l generalizing b with
  | nil => exact ⟨b, rfl, Or.inl rfl, le_refl _, by simp⟩
  | cons a t ih =>
    by_cases h : b.createdAt < a.createdAt
    · obtain ⟨r, hr, hmem, hle, hall⟩ := ih a
      refine ⟨r, ?_, ?_, ?_, ?_⟩
      · simpa [newerStep, h] using hr
      · rcases hmem with h1 | h1
        · exact Or.inr (h1 ▸ List.mem_cons_self a t)
        · exact Or.inr (List.mem_cons_of_mem a h1)
      · exact le_of_lt (lt_of_lt_of_le h hle)
      · intro x hx
        rcases List.mem_cons.mp hx with h1 | h1
        · exact h1 ▸ hle
        · exact hall x h1
    · obtain ⟨r, hr, hmem, hle, hall⟩ := ih b
      refine ⟨r, ?_, ?_, hle, ?_⟩
      · simpa [newerStep, h] using hr
      · rcases hmem with h1 | h1
        · exact Or.inl h1
        · exact Or.inr (List.mem_cons_of_mem a h1)
      · intro x hx
        rcases List.mem_cons.mp hx with h1 | h1
        · exact h1 ▸ le_trans (le_of_not_lt h) hle
        · exact hall x h1

/-- The selected row is a member of the list and has the maximal
`createdAt`. -/
theorem newestBy_spec (l : List CodeRow) (r : CodeRow) (h : newestBy l = some r) :
    r ∈ l ∧ ∀ x ∈ l, x.createdAt ≤ r.createdAt := by
  cases l with
  | nil => simp [newestBy] at h
  | cons a t =>
    obtain ⟨r2, hr2, hmem, hseed, hall⟩ := foldl_newerStep_some t a
    have heq : newestBy (a :: t) = some r2 := by
      simpa [newestBy, List.foldl_cons, newerStep] using hr2
    have hrr : r = r2 := Option.some.inj (h.symm.trans heq)
    subst hrr
    constructor
    · rcases hmem with h1 | h1
      · exact h1 ▸ List.mem_cons_self a t
      · exact List.mem_cons_of_mem a h1
    · intro x hx
      rcases List.mem_cons.mp hx with h1 | h1
      · exact h1 ▸ hseed
      · exact hall x h1

/-- The verify-code lookup returns a row of the store matching
(email, code, used=false) whose `createdAt` is maximal among all such
rows. -/
theorem findCode_spec (st : Store) (ne c : String) (row : CodeRow)
    (h : findCode st ne c = some row) :
    row ∈ st.codes ∧ row.email = ne ∧ row.code = c ∧ row.used = false ∧
      ∀ r ∈ st.codes, r.email = ne → r.code = c → r.used = false →
        r.createdAt ≤ row.createdAt := by
  unfold findCode at h
  obtain ⟨hmem, hmax⟩ := newestBy_spec _ _ h
  obtain ⟨hin, hmatch⟩ := List.mem_filter.mp hmem
  simp only [matchesCode, Bool.and_eq_true, beq_iff_eq, Bool.not_eq_true'] at hmatch
  obtain ⟨⟨he, hc⟩, hu⟩ := hmatch
  refine ⟨hin, he, hc, hu, ?_⟩
  intro r hr hre hrc hru
  exact hmax r (List.mem_filter.mpr ⟨hr, by simp [matchesCode, hre, hrc, hru]⟩)

/-- If no row of the store matches (email, code, used=false), the lookup
comes back empty (`.single()` then errors, which the handler reports as
an invalid code). -/
theorem findCode_eq_none (st : Store) (ne c : String)
    (h : ∀ r ∈ st.codes, r.email = ne → r.code = c → r.used = false → False) :
    findCode st ne c = Option.none := by
  unfold findCode
  have hfil : st.codes.filter (matchesCode ne c) = [] := by
    rw [List.filter_eq_nil_iff]
    intro a ha hm
    simp only [matchesCode, Bool.and_eq_true, beq_iff_eq, Bool.not_eq_true'] at hm
    exact h a ha hm.1.1 hm.1.2 hm.2
  rw [hfil]
  rfl

/-- A row that is still unused after `markUsedAt st i t` was already in
the store, unchanged, and its id is not `i`. -/
theorem mem_markUsedAt_unused (st : Store) (i t : Nat) (r : CodeRow)
    (h : r ∈ (markUsedAt st i t).codes) (hu : r.used = false) :
    r ∈ st.codes ∧ r.id ≠ i := by
  simp only [markUsedAt, List.mem_map] at h
  obtain ⟨s, hs, hr⟩ := h
  by_cases hid : (s.id == i) = true
  · rw [if_pos hid] at hr
    rw [← hr] at hu
    simp at hu
  · rw [if_neg hid] at hr
    subst hr
    exact ⟨hs, by simpa using hid⟩

/-- Same statement for the expired-branch update `markUsedOnly`. -/
theorem mem_markUsedOnly_unused (st : Store) (i : Nat) (r : CodeRow)
    (h : r ∈ (markUsedOnly st i).codes) (hu : r.used = false) :
    r ∈ st.codes ∧ r.id ≠ i := by
  simp only [markUsedOnly, List.mem_map] at h
  obtain ⟨s, hs, hr⟩ := h
  by_cases hid : (s.id == i) = true
  · rw [if_pos hid] at hr
    rw [← hr] at hu
    simp at hu
  · rw [if_neg hid] at hr
    subst hr
    exact ⟨hs, by simpa using hid⟩

/-- After `markUsedOnly st i`, every row with id `i` carries `used = true`. -/
theorem markUsedOnly_used (st : Store) (i : Nat) (r : CodeRow)
    (h : r ∈ (markUsedOnly st i).codes) (hid : r.id = i) : r.used = true := by
  simp only [markUsedOnly, List.mem_map] at h
  obtain ⟨s, hs, hr⟩ := h
  by_cases hsi : (s.id == i) = true
  · rw [if_pos hsi] at hr
    rw [← hr]
  · rw [if_neg hsi] at hr
    subst hr
    exact absurd (by simp [hid]) hsi

/-- Deleting by session id removes every row with that id, so a fresh
lookup finds nothing. -/
theorem find_after_delete (l : List SessionRow) (sid : String) :
    (l.filter (fun r => r.sessionId != sid)).find? (fun s => s.sessionId == sid)
      = Option.none := by
  apply List.find?_eq_none.mpr
  intro x hx
  have hne := (List.mem_filter.mp hx).2
  simp only [bne_iff_ne, ne_eq] at hne
  simp [hne]

/-- A five-digit code is in particular nonempty (so it passes the
falsy-field check). -/
theorem isFiveDigits_ne_empty (c : String) (h : isFiveDigits c = true) : c ≠ "" := by
  intro hc
  subst hc
  simp [isFiveDigits] at h

/-- With a POST request, well-formed fields, a working fetch, and a
matching row found, verify-code reduces to its post-lookup phase. -/
theorem verifyCode_eq_afterFetch (st : Store) (f : VFaults) (now : Nat)
    (sid email c : String) (row : CodeRow)
    (hm : email ≠ "") (hc5 : isFiveDigits c = true) (hf : f.fetchErr = false)
    (hfind : findCode st (normalizeEmail email) c = some row) :
    verifyCode st f now sid "POST" email c
      = afterFetch st f now sid (normalizeEmail email) row := by
  have hcne : c ≠ "" := isFiveDigits_ne_empty c hc5
  simp [verifyCode, hm, hcne, hc5, hf, hfind]

/-- With a POST request and well-formed fields, an empty lookup result
yields the 401 invalid-code response and leaves the store unchanged. -/
theorem verifyCode_invalid_of_none (st : Store) (f : VFaults) (now : Nat)
    (sid email c : String)
    (hm : email ≠ "") (hc5 : isFiveDigits c = true) (hf : f.fetchErr = false)
    (hfind : findCode st (normalizeEmail email) c = Option.none) :
    verifyCode st f now sid "POST" email c = (.invalidCode, st) := by
  have hcne : c ≠ "" := isFiveDigits_ne_empty c hc5
  simp [verifyCode, hm, hcne, hc5, hf, hfind]

/-- A failing lookup call is handled exactly like an empty result: the
401 invalid-code response. -/
theorem verifyCode_invalid_of_fetchErr (st : Store) (f : VFaults) (now : Nat)
    (sid email c : String)
    (hm : email ≠ "") (hc5 : isFiveDigits c = true) (hf : f.fetchErr = true) :
    verifyCode st f now sid "POST" email c = (.invalidCode, st) := by
  have hcne : c ≠ "" := isFiveDigits_ne_empty c hc5
  simp [verifyCode, hm, hcne, hc5, hf]

/-! ### Claim theorems -/

/-- Claim C7: the verify-code lookup selects, among all rows matching
(email, code, used=false), one that belongs to the store and whose
`createdAt` is maximal (order by createdAt descending, take the newest,
ignoring older matching rows); and when no such row exists the handler
returns the 401 invalid-code response. -/
theorem verify_code_lookup_newest
    (st : Store) (f : VFaults) (now : Nat) (sid email c : String)
    (hm : email ≠ "") (hc5 : isFiveDigits c = true) (hf : f.fetchErr = false) :
    (∀ row, findCode st (normalizeEmail email) c = some row →
        row ∈ st.codes ∧ row.email = normalizeEmail email ∧ row.code = c ∧
          row.used = false ∧
          ∀ r ∈ st.codes, r.email = normalizeEmail email → r.code = c →
            r.used = false → r.createdAt ≤ row.createdAt)
    ∧ (findCode st (normalizeEmail email) c = Option.none →
        (verifyCode st f now sid "POST" email c).1 = .invalidCode ∧
          vStatus (verifyCode st f now sid "POST" email c).1 = 401) := by
  constructor
  · intro row hrow
    exact findCode_spec st _ c row hrow
  · intro hnone
    rw [verifyCode_invalid_of_none st f now sid email c hm hc5 hf hnone]
    exact ⟨rfl, rfl⟩

/-- Witness for C7: on an empty store the lookup finds nothing and the
handler answers 401 invalid. -/
theorem verify_code_lookup_newest_witness :
    (verifyCode ⟨[], []⟩ VFaults.none 500 "sidA" "POST" "alice@x.com" "12345").1
        = .invalidCode
    ∧ vStatus (verifyCode ⟨[], []⟩ VFaults.none 500 "sidA" "POST" "alice@x.com" "12345").1
        = 401 :=
  (verify_code_lookup_newest ⟨[], []⟩ VFaults.none 500 "sidA" "alice@x.com" "12345"
    (by decide) (by decide) rfl).2 (by decide)

/-- Claim C1, counterexample: when two unused, unexpired rows carry the
same (email, code) - the state two send-code calls produce when the
random generator repeats a value - verify-code succeeds twice with the
same (email, code): the second attempt is served by the older row, so it
does not return invalid. -/
theorem verify_code_duplicate_replay :
    (verifyCode ⟨[⟨1, "alice@x.com", "12345", 100, 600100, false, Option.none⟩,
                  ⟨2, "alice@x.com", "12345", 200, 600200, false, Option.none⟩], []⟩
        VFaults.none 500 "sidA" "POST" "alice@x.com" "12345").1
      = .verified "sidA" (500 + sessionDurationMs)
    ∧ (verifyCode
        (verifyCode ⟨[⟨1, "alice@x.com", "12345", 100, 600100, false, Option.none⟩,
                      ⟨2, "alice@x.com", "12345", 200, 600200, false, Option.none⟩], []⟩
          VFaults.none 500 "sidA" "POST" "alice@x.com" "12345").2
        VFaults.none 600 "sidB" "POST" "alice@x.com" "12345").1
      = .verified "sidB" (600 + sessionDurationMs) := by decide

/-- Claim C1, amended: when the matched row is the only unused row with
its (email, code), verify-code succeeds exactly once: the first call
returns Verified and the second call with the same (email, code) returns
invalid, because the row, once marked used, never again satisfies the
lookup. -/
theorem verify_code_single_use
    (st : Store) (now now2 : Nat) (sid sid2 email c : String) (row : CodeRow)
    (hm : email ≠ "") (hc5 : isFiveDigits c = true)
    (hfind : findCode st (normalizeEmail email) c = some row)
    (hexp : ¬ row.expiresAt < now)
    (huniq : ∀ r ∈ st.codes, r.email = normalizeEmail email → r.code = c →
        r.used = false → r.id = row.id) :
    (verifyCode st VFaults.none now sid "POST" email c).1
        = .verified sid (now + sessionDurationMs)
    ∧ (verifyCode (verifyCode st VFaults.none now sid "POST" email c).2
        VFaults.none now2 sid2 "POST" email c).1 = .invalidCode := by
  have h1 := verifyCode_eq_afterFetch st VFaults.none now sid email c row hm hc5 rfl hfind
  have hAF : afterFetch st VFaults.none now sid (normalizeEmail email) row
      = (.verified sid (now + sessionDurationMs),
         { markUsedAt st row.id now with
           sessions := (markUsedAt st row.id now).sessions
             ++ [⟨sid, normalizeEmail email, now + sessionDurationMs, Option.none⟩] }) := by
    simp [afterFetch, hexp, VFaults.none]
  constructor
  · rw [h1, hAF]
  · have hnone : findCode (verifyCode st VFaults.none now sid "POST" email c).2
        (normalizeEmail email) c = Option.none := by
      apply findCode_eq_none
      intro r hr hre hrc hru
      rw [h1, hAF] at hr
      obtain ⟨hmem, hneid⟩ := mem_markUsedAt_unused st row.id now r hr hru
      exact hneid (huniq r hmem hre hrc hru)
    rw [verifyCode_invalid_of_none _ VFaults.none now2 sid2 email c hm hc5 rfl hnone]

/-- Witness for the amended C1: a fresh single code redeems once, then
the same pair is rejected. -/
theorem verify_code_single_use_witness :
    (verifyCode ⟨[⟨1, "alice@x.com", "12345", 100, 600100, false, Option.none⟩], []⟩
        VFaults.none 500 "sidA" "POST" "alice@x.com" "12345").1
      = .verified "sidA" (500 + sessionDurationMs)
    ∧ (verifyCode
        (verifyCode ⟨[⟨1, "alice@x.com", "12345", 100, 600100, false, Option.none⟩], []⟩
          VFaults.none 500 "sidA" "POST" "alice@x.com" "12345").2
        VFaults.none 600 "sidB" "POST" "alice@x.com" "12345").1 = .invalidCode :=
  verify_code_single_use
    ⟨[⟨1, "alice@x.com", "12345", 100, 600100, false, Option.none⟩], []⟩
    500 600 "sidA" "sidB" "alice@x.com" "12345"
    ⟨1, "alice@x.com", "12345", 100, 600100, false, Option.none⟩
    (by decide) (by decide) (by decide) (by decide) (by decide)

/-- Claim C2: the mark-used step is an unconditional update keyed on the
row id (no compare-and-set on used=false, no returning of the previous
row), so in the interleaving where both concurrent calls perform their
lookup before either writes, BOTH calls return Verified and two sessions
are created for the one code - refuting the claimed exactly-one-session
resolution. -/
theorem verify_code_race_two_sessions :
    normalizeEmail "alice@x.com" = "alice@x.com"
    ∧ findCode ⟨[⟨1, "alice@x.com", "12345", 100, 600100, false, Option.none⟩], []⟩
        "alice@x.com" "12345"
      = some ⟨1, "alice@x.com", "12345", 100, 600100, false, Option.none⟩
    ∧ (afterFetch ⟨[⟨1, "alice@x.com", "12345", 100, 600100, false, Option.none⟩], []⟩
        VFaults.none 500 "sidA" "alice@x.com"
        ⟨1, "alice@x.com", "12345", 100, 600100, false, Option.none⟩).1
      = .verified "sidA" (500 + sessionDurationMs)
    ∧ (afterFetch
        (afterFetch ⟨[⟨1, "alice@x.com", "12345", 100, 600100, false, Option.none⟩], []⟩
          VFaults.none 500 "sidA" "alice@x.com"
          ⟨1, "alice@x.com", "12345", 100, 600100, false, Option.none⟩).2
        VFaults.none 500 "sidB" "alice@x.com"
        ⟨1, "alice@x.com", "12345", 100, 600100, false, Option.none⟩).1
      = .verified "sidB" (500 + sessionDurationMs)
    ∧ (afterFetch
        (afterFetch ⟨[⟨1, "alice@x.com", "12345", 100, 600100, false, Option.none⟩], []⟩
          VFaults.none 500 "sidA" "alice@x.com"
          ⟨1, "alice@x.com", "12345", 100, 600100, false, Option.none⟩).2
        VFaults.none 500 "sidB" "alice@x.com"
        ⟨1, "alice@x.com", "12345", 100, 600100, false, Option.none⟩).2.sessions.length
      = 2 := by decide

/-- Claim C3: when the update marking the code used, or the session
insert, fails, verify-code answers with statusCode 500 and the response
carries no sessionId. -/
theorem verify_code_persistence_failure_500
    (st : Store) (f : VFaults) (now : Nat) (sid email c : String) (row : CodeRow)
    (hm : email ≠ "") (hc5 : isFiveDigits c = true) (hf : f.fetchErr = false)
    (hfind : findCode st (normalizeEmail email) c = some row)
    (hexp : ¬ row.expiresAt < now)
    (hfail : f.updateErr = true ∨ f.insertErr = true) :
    vStatus (verifyCode st f now sid "POST" email c).1 = 500
    ∧ hasSessionId (verifyCode st f now sid "POST" email c).1 = false := by
  rw [verifyCode_eq_afterFetch st f now sid email c row hm hc5 hf hfind]
  by_cases hu : f.updateErr = true
  · simp [afterFetch, hexp, hu, vStatus, hasSessionId]
  · have hu2 : f.updateErr = false := by simpa using hu
    have hi : f.insertErr = true := hfail.resolve_left hu
    simp [afterFetch, hexp, hu2, hi, vStatus, hasSessionId]

/-- Witness for C3: a failing mark-used update on a valid fresh code
yields 500 without a sessionId. -/
theorem verify_code_persistence_failure_500_witness :
    vStatus (verifyCode ⟨[⟨1, "alice@x.com", "12345", 100, 600100, false, Option.none⟩], []⟩
        ⟨false, true, false⟩ 500 "sidA" "POST" "alice@x.com" "12345").1 = 500
    ∧ hasSessionId (verifyCode ⟨[⟨1, "alice@x.com", "12345", 100, 600100, false, Option.none⟩], []⟩
        ⟨false, true, false⟩ 500 "sidA" "POST" "alice@x.com" "12345").1 = false :=
  verify_code_persistence_failure_500
    ⟨[⟨1, "alice@x.com", "12345", 100, 600100, false, Option.none⟩], []⟩
    ⟨false, true, false⟩ 500 "sidA" "alice@x.com" "12345"
    ⟨1, "alice@x.com", "12345", 100, 600100, false, Option.none⟩
    (by decide) (by decide) rfl (by decide) (by decide) (Or.inl rfl)

/-- Claim C4: when the matched unused code is past its expiry,
verify-code marks it used and answers 401 Expired; and - because every
code of that (email, code) expires no later than the matched newest one -
any repeated call with the same pair at the same or a later time answers
Expired or Invalid, never Verified. -/
theorem verify_code_expired_marks_used
    (st : Store) (now : Nat) (sid email c : String) (row : CodeRow)
    (hm : email ≠ "") (hc5 : isFiveDigits c = true)
    (hfind : findCode st (normalizeEmail email) c = some row)
    (hexp : row.expiresAt < now)
    (hdur : ∀ r ∈ st.codes, r.email = normalizeEmail email → r.code = c →
        r.expiresAt = r.createdAt + codeDurationMs) :
    (verifyCode st VFaults.none now sid "POST" email c).1 = .expired
    ∧ vStatus (verifyCode st VFaults.none now sid "POST" email c).1 = 401
    ∧ (∀ r ∈ (verifyCode st VFaults.none now sid "POST" email c).2.codes,
        r.id = row.id → r.used = true)
    ∧ ∀ (g : VFaults) (now2 : Nat) (sid2 : String), now ≤ now2 →
        (verifyCode (verifyCode st VFaults.none now sid "POST" email c).2
            g now2 sid2 "POST" email c).1 = .expired
        ∨ (verifyCode (verifyCode st VFaults.none now sid "POST" email c).2
            g now2 sid2 "POST" email c).1 = .invalidCode := by
  have h1 := verifyCode_eq_afterFetch st VFaults.none now sid email c row hm hc5 rfl hfind
  have hAF : afterFetch st VFaults.none now sid (normalizeEmail email) row
      = (.expired, markUsedOnly st row.id) := by
    simp [afterFetch, hexp, VFaults.none]
  obtain ⟨hrowmem, hrowe, hrowc, _, hmax⟩ := findCode_spec st _ c row hfind
  refine ⟨by rw [h1, hAF], by rw [h1, hAF]; rfl, ?_, ?_⟩
  · intro r hr hid
    rw [h1, hAF] at hr
    exact markUsedOnly_used st row.id r hr hid
  · intro g now2 sid2 hnn
    by_cases hg : g.fetchErr = true
    · exact Or.inr (by
        rw [verifyCode_invalid_of_fetchErr _ g now2 sid2 email c hm hc5 hg])
    · have hg2 : g.fetchErr = false := by simpa using hg
      cases hc2 : findCode (verifyCode st VFaults.none now sid "POST" email c).2
          (normalizeEmail email) c with
      | none =>
        exact Or.inr (by
          rw [verifyCode_invalid_of_none _ g now2 sid2 email c hm hc5 hg2 hc2])
      | some r2 =>
        left
        obtain ⟨hr2mem, hr2e, hr2c, hr2u, _⟩ := findCode_spec _ _ c r2 hc2
        rw [h1, hAF] at hr2mem
        obtain ⟨hr2in, _⟩ := mem_markUsedOnly_unused st row.id r2 hr2mem hr2u
        have hle : r2.createdAt ≤ row.createdAt := hmax r2 hr2in hr2e hr2c hr2u
        have he2 : r2.expiresAt = r2.createdAt + codeDurationMs := hdur r2 hr2in hr2e hr2c
        have herow : row.expiresAt = row.createdAt + codeDurationMs := hdur row hrowmem hrowe hrowc
        have hexp2 : r2.expiresAt < now2 := by omega
        rw [verifyCode_eq_afterFetch _ g now2 sid2 email c r2 hm hc5 hg2 hc2]
        simp [afterFetch, hexp2]

/-- Witness for C4: an expired code answers 401 Expired, and a repeated
call afterwards answers Expired or Invalid. -/
theorem verify_code_expired_marks_used_witness :
    (verifyCode ⟨[⟨1, "alice@x.com", "12345", 100, 600100, false, Option.none⟩], []⟩
        VFaults.none 700000 "sidA" "POST" "alice@x.com" "12345").1 = .expired
    ∧ vStatus (verifyCode ⟨[⟨1, "alice@x.com", "12345", 100, 600100, false, Option.none⟩], []⟩
        VFaults.none 700000 "sidA" "POST" "alice@x.com" "12345").1 = 401
    ∧ ((verifyCode (verifyCode ⟨[⟨1, "alice@x.com", "12345", 100, 600100, false, Option.none⟩], []⟩
          VFaults.none 700000 "sidA" "POST" "alice@x.com" "12345").2
        VFaults.none 800000 "sidB" "POST" "alice@x.com" "12345").1 = .expired
      ∨ (verifyCode (verifyCode ⟨[⟨1, "alice@x.com", "12345", 100, 600100, false, Option.none⟩], []⟩
          VFaults.none 700000 "sidA" "POST" "alice@x.com" "12345").2
        VFaults.none 800000 "sidB" "POST" "alice@x.com" "12345").1 = .invalidCode) := by
  have h := verify_code_expired_marks_used
    ⟨[⟨1, "alice@x.com", "12345", 100, 600100, false, Option.none⟩], []⟩
    700000 "sidA" "alice@x.com" "12345"
    ⟨1, "alice@x.com", "12345", 100, 600100, false, Option.none⟩
    (by decide) (by decide) (by decide) (by decide) (by decide)
  exact ⟨h.1, h.2.1, h.2.2.2 VFaults.none 800000 "sidB" (by decide)⟩

/-- Claim C10: in the expired-code branch, a failing mark-used update is
silently ignored - the handler still answers 401 Expired, the store is
unchanged, and the same row still satisfies the lookup afterwards. -/
theorem verify_code_expired_update_failure_ignored
    (st : Store) (now : Nat) (sid email c : String) (row : CodeRow)
    (hm : email ≠ "") (hc5 : isFiveDigits c = true)
    (hfind : findCode st (normalizeEmail email) c = some row)
    (hexp : row.expiresAt < now) :
    (verifyCode st ⟨false, true, false⟩ now sid "POST" email c).1 = .expired
    ∧ vStatus (verifyCode st ⟨false, true, false⟩ now sid "POST" email c).1 = 401
    ∧ (verifyCode st ⟨false, true, false⟩ now sid "POST" email c).2 = st
    ∧ findCode (verifyCode st ⟨false, true, false⟩ now sid "POST" email c).2
        (normalizeEmail email) c = some row := by
  have h1 := verifyCode_eq_afterFetch st ⟨false, true, false⟩ now sid email c row hm hc5 rfl hfind
  have hAF : afterFetch st ⟨false, true, false⟩ now sid (normalizeEmail email) row
      = (.expired, st) := by
    simp [afterFetch, hexp]
  rw [h1, hAF]
  exact ⟨rfl, rfl, rfl, hfind⟩

/-- Witness for C10: expired code, failing update: 401 Expired and the
row stays unused and matchable. -/
theorem verify_code_expired_update_failure_ignored_witness :
    (verifyCode ⟨[⟨1, "alice@x.com", "12345", 100, 600100, false, Option.none⟩], []⟩
        ⟨false, true, false⟩ 700000 "sidA" "POST" "alice@x.com" "12345").1 = .expired
    ∧ vStatus (verifyCode ⟨[⟨1, "alice@x.com", "12345", 100, 600100, false, Option.none⟩], []⟩
        ⟨false, true, false⟩ 700000 "sidA" "POST" "alice@x.com" "12345").1 = 401
    ∧ (verifyCode ⟨[⟨1, "alice@x.com", "12345", 100, 600100, false, Option.none⟩], []⟩
        ⟨false, true, false⟩ 700000 "sidA" "POST" "alice@x.com" "12345").2
      = ⟨[⟨1, "alice@x.com", "12345", 100, 600100, false, Option.none⟩], []⟩
    ∧ findCode (verifyCode ⟨[⟨1, "alice@x.com", "12345", 100, 600100, false, Option.none⟩], []⟩
        ⟨false, true, false⟩ 700000 "sidA" "POST" "alice@x.com" "12345").2
        (normalizeEmail "alice@x.com") "12345"
      = some ⟨1, "alice@x.com", "12345", 100, 600100, false, Option.none⟩ :=
  verify_code_expired_update_failure_ignored
    ⟨[⟨1, "alice@x.com", "12345", 100, 600100, false, Option.none⟩], []⟩
    700000 "sidA" "alice@x.com" "12345"
    ⟨1, "alice@x.com", "12345", 100, 600100, false, Option.none⟩
    (by decide) (by decide) (by decide) (by decide)

/-- An absent session (failed or empty lookup) yields the not-found
response and leaves the store unchanged. -/
theorem checkSession_notFound (st : Store) (g : CFaults) (now : Nat) (sid : String)
    (hsid : sid ≠ "")
    (hf : g.fetchErr = true
      ∨ st.sessions.find? (fun r => r.sessionId == sid) = Option.none) :
    checkSession st g now "POST" sid = (.notFound, st) := by
  rcases hf with hf | hf
  · simp [checkSession, hsid, hf]
  · by_cases hg : g.fetchErr = true
    · simp [checkSession, hsid, hg]
    · have hg2 : g.fetchErr = false := by simpa using hg
      simp [checkSession, hsid, hg2, hf]

/-- Claim C6: a check-session call on a session past its expiresAt
deletes the session row and answers valid:false (reason expired), and
every subsequent check-session call with the same sessionId answers
valid:false via not-found. -/
theorem check_session_expired_deletes
    (st : Store) (now : Nat) (sid : String) (s : SessionRow)
    (hsid : sid ≠ "")
    (hfind : st.sessions.find? (fun r => r.sessionId == sid) = some s)
    (hexp : s.expiresAt < now) :
    (checkSession st CFaults.none now "POST" sid).1 = .expiredSession
    ∧ cValid (checkSession st CFaults.none now "POST" sid).1 = false
    ∧ (∀ r ∈ (checkSession st CFaults.none now "POST" sid).2.sessions,
        r.sessionId ≠ sid)
    ∧ ∀ (g : CFaults) (now2 : Nat),
        (checkSession (checkSession st CFaults.none now "POST" sid).2
            g now2 "POST" sid).1 = .notFound
        ∧ cValid (checkSession (checkSession st CFaults.none now "POST" sid).2
            g now2 "POST" sid).1 = false := by
  have h : checkSession st CFaults.none now "POST" sid
      = (.expiredSession,
         { st with sessions := st.sessions.filter (fun r => r.sessionId != sid) }) := by
    simp [checkSession, hsid, hfind, hexp, CFaults.none]
  refine ⟨by rw [h], by rw [h]; rfl, ?_, ?_⟩
  · intro r hr
    rw [h] at hr
    have hne := (List.mem_filter.mp hr).2
    simpa [bne_iff_ne] using hne
  · intro g now2
    rw [h]
    rw [checkSession_notFound _ g now2 sid hsid (Or.inr (find_after_delete st.sessions sid))]
    exact ⟨rfl, rfl⟩

/-- Witness for C6: an expired session is reported expired, deleted, and
a later call reports not-found. -/
theorem check_session_expired_deletes_witness :
    (checkSession ⟨[], [⟨"S", "alice@x.com", 900, Option.none⟩]⟩
        CFaults.none 1000 "POST" "S").1 = .expiredSession
    ∧ cValid (checkSession ⟨[], [⟨"S", "alice@x.com", 900, Option.none⟩]⟩
        CFaults.none 1000 "POST" "S").1 = false
    ∧ (checkSession (checkSession ⟨[], [⟨"S", "alice@x.com", 900, Option.none⟩]⟩
          CFaults.none 1000 "POST" "S").2
        CFaults.none 2000 "POST" "S").1 = .notFound
    ∧ cValid (checkSession (checkSession ⟨[], [⟨"S", "alice@x.com", 900, Option.none⟩]⟩
          CFaults.none 1000 "POST" "S").2
        CFaults.none 2000 "POST" "S").1 = false := by
  have h := check_session_expired_deletes
    ⟨[], [⟨"S", "alice@x.com", 900, Option.none⟩]⟩ 1000 "S"
    ⟨"S", "alice@x.com", 900, Option.none⟩
    (by decide) (by decide) (by decide)
  exact ⟨h.1, h.2.1, (h.2.2.2 CFaults.none 2000).1, (h.2.2.2 CFaults.none 2000).2⟩

/-- Claim C5, counterexample: "bad" is not in the whitelist, yet
send-code answers 400 (invalid email format), not 403; so "every email
not in the whitelist gets 403" fails as stated (no row is inserted
either way). -/
theorem send_code_malformed_not_403 :
    (approvedList (some "alice@x.com")).contains (normalizeEmail "bad") = false
    ∧ (sendCode ⟨[], []⟩ SFaults.none (some "alice@x.com") 1 "54321" 0 "POST" "bad").1
        = .badEmailFormat
    ∧ sStatus (sendCode ⟨[], []⟩ SFaults.none (some "alice@x.com") 1 "54321" 0
        "POST" "bad").1 = 400
    ∧ (sendCode ⟨[], []⟩ SFaults.none (some "alice@x.com") 1 "54321" 0 "POST" "bad").2
        = ⟨[], []⟩ := by decide

/-- Claim C5, amended: every well-formed (after normalization) email
that is not in the whitelist gets 403 from send-code and the store is
completely unchanged - no VerificationCode row is created; emails
rejected earlier (missing or malformed) also leave the store unchanged,
but with a 400. -/
theorem send_code_not_whitelisted_403
    (st : Store) (f : SFaults) (raw : Option String) (i : Nat) (g : String)
    (now : Nat) (email : String)
    (hm : email ≠ "")
    (hfmt : emailFormatValid (normalizeEmail email) = true)
    (hwl : (approvedList raw).contains (normalizeEmail email) = false) :
    (sendCode st f raw i g now "POST" email).1 = .notWhitelisted
    ∧ sStatus (sendCode st f raw i g now "POST" email).1 = 403
    ∧ (sendCode st f raw i g now "POST" email).2 = st := by
  have hwl2 : normalizeEmail email ∉ approvedList raw := by simpa using hwl
  have h : sendCode st f raw i g now "POST" email = (.notWhitelisted, st) := by
    simp [sendCode, hm, hfmt, hwl2]
  rw [h]
  exact ⟨rfl, rfl, rfl⟩

/-- Witness for the amended C5: a well-formed non-whitelisted email gets
403 and the store stays empty. -/
theorem send_code_not_whitelisted_403_witness :
    (sendCode ⟨[], []⟩ SFaults.none (some "alice@x.com") 1 "54321" 0
        "POST" "eve@evil.com").1 = .notWhitelisted
    ∧ sStatus (sendCode ⟨[], []⟩ SFaults.none (some "alice@x.com") 1 "54321" 0
        "POST" "eve@evil.com").1 = 403
    ∧ (sendCode ⟨[], []⟩ SFaults.none (some "alice@x.com") 1 "54321" 0
        "POST" "eve@evil.com").2 = ⟨[], []⟩ :=
  send_code_not_whitelisted_403 ⟨[], []⟩ SFaults.none (some "alice@x.com") 1 "54321" 0
    "eve@evil.com" (by decide) (by decide) (by decide)

/-- Claim C8: when the code row was persisted but the email dispatch
fails, send-code still answers 200 with success:true plus the delivery
warning, and the stored row (unused, expiring in 10 minutes) is in the
store. -/
theorem send_code_email_failure_success_warning
    (st : Store) (raw : Option String) (i : Nat) (g : String) (now : Nat)
    (email : String)
    (hm : email ≠ "")
    (hfmt : emailFormatValid (normalizeEmail email) = true)
    (hwl : (approvedList raw).contains (normalizeEmail email) = true) :
    (sendCode st ⟨false, true⟩ raw i g now "POST" email).1 = .sentWithWarning
    ∧ sStatus (sendCode st ⟨false, true⟩ raw i g now "POST" email).1 = 200
    ∧ sSuccess (sendCode st ⟨false, true⟩ raw i g now "POST" email).1 = true
    ∧ sWarning (sendCode st ⟨false, true⟩ raw i g now "POST" email).1 = true
    ∧ (⟨i, normalizeEmail email, g, now, now + codeDurationMs, false, Option.none⟩ : CodeRow)
        ∈ (sendCode st ⟨false, true⟩ raw i g now "POST" email).2.codes := by
  have hwl2 : normalizeEmail email ∈ approvedList raw := by simpa using hwl
  have h : sendCode st ⟨false, true⟩ raw i g now "POST" email
      = (.sentWithWarning,
         { st with codes := st.codes
             ++ [⟨i, normalizeEmail email, g, now, now + codeDurationMs, false, Option.none⟩] }) := by
    simp [sendCode, hm, hfmt, hwl2]
  rw [h]
  refine ⟨rfl, rfl, rfl, rfl, ?_⟩
  simp

/-- Witness for C8: failed dispatch for a whitelisted email still
reports success with a warning, and the code row is stored. -/
theorem send_code_email_failure_success_warning_witness :
    (sendCode ⟨[], []⟩ ⟨false, true⟩ (some "alice@x.com") 7 "54321" 1000
        "POST" "alice@x.com").1 = .sentWithWarning
    ∧ sStatus (sendCode ⟨[], []⟩ ⟨false, true⟩ (some "alice@x.com") 7 "54321" 1000
        "POST" "alice@x.com").1 = 200
    ∧ sSuccess (sendCode ⟨[], []⟩ ⟨false, true⟩ (some "alice@x.com") 7 "54321" 1000
        "POST" "alice@x.com").1 = true
    ∧ sWarning (sendCode ⟨[], []⟩ ⟨false, true⟩ (some "alice@x.com") 7 "54321" 1000
        "POST" "alice@x.com").1 = true
    ∧ (⟨7, normalizeEmail "alice@x.com", "54321", 1000, 1000 + codeDurationMs,
          false, Option.none⟩ : CodeRow)
        ∈ (sendCode ⟨[], []⟩ ⟨false, true⟩ (some "alice@x.com") 7 "54321" 1000
            "POST" "alice@x.com").2.codes :=
  send_code_email_failure_success_warning ⟨[], []⟩ (some "alice@x.com") 7 "54321" 1000
    "alice@x.com" (by decide) (by decide) (by decide)

/-- Claim C9, counterexample: the empty string and a blank string
normalize identically, yet send-code answers differently (missing-email
400 versus invalid-format 400, distinct response bodies), because the
falsy-field check runs before normalization; so "identical observable
results for every pair equal after trim+lowercase" fails as stated. -/
theorem normalization_empty_vs_blank :
    normalizeEmail "" = normalizeEmail " "
    ∧ (sendCode ⟨[], []⟩ SFaults.none (some "alice@x.com") 1 "54321" 0 "POST" "").1
        = .missingEmail
    ∧ (sendCode ⟨[], []⟩ SFaults.none (some "alice@x.com") 1 "54321" 0 "POST" " ").1
        = .badEmailFormat
    ∧ (sendCode ⟨[], []⟩ SFaults.none (some "alice@x.com") 1 "54321" 0 "POST" "").1
        ≠ (sendCode ⟨[], []⟩ SFaults.none (some "alice@x.com") 1 "54321" 0 "POST" " ").1 := by
  decide

/-- Claim C9, amended: for every pair of NONEMPTY raw email inputs that
are equal after trimming and lowercasing, send-code and verify-code
behave identically - same response and same resulting store. -/
theorem email_normalization_identity
    (st : Store) (vf : VFaults) (sf : SFaults) (raw : Option String)
    (now : Nat) (sid c : String) (i : Nat) (g : String) (m e1 e2 : String)
    (h1 : e1 ≠ "") (h2 : e2 ≠ "")
    (hn : normalizeEmail e1 = normalizeEmail e2) :
    verifyCode st vf now sid m e1 c = verifyCode st vf now sid m e2 c
    ∧ sendCode st sf raw i g now m e1 = sendCode st sf raw i g now m e2 := by
  constructor
  · simp [verifyCode, h1, h2, hn]
  · simp [sendCode, h1, h2, hn]

/-- Witness for the amended C9: a padded mixed-case address and its
normalized form produce the same send-code and verify-code outcomes. -/
theorem email_normalization_identity_witness :
    verifyCode ⟨[], []⟩ VFaults.none 500 "sidA" "POST" "  Alice@X.com " "12345"
      = verifyCode ⟨[], []⟩ VFaults.none 500 "sidA" "POST" "alice@x.com" "12345"
    ∧ sendCode ⟨[], []⟩ SFaults.none (some "alice@x.com") 1 "54321" 500
        "POST" "  Alice@X.com "
      = sendCode ⟨[], []⟩ SFaults.none (some "alice@x.com") 1 "54321" 500
        "POST" "alice@x.com" :=
  email_normalization_identity ⟨[], []⟩ VFaults.none SFaults.none (some "alice@x.com")
    500 "sidA" "12345" 1 "54321" "POST" "  Alice@X.com " "alice@x.com"
    (by decide) (by decide) (by decide)

end PermAuth
